import Mathlib

/-! Airtable client: embedding and verification.

A shallow embedding of `airtable.go` and `constants.go`.

* Go strings are modelled as Lean `String`s (sequences of Unicode code points).
* Pointers to strings and to payloads (`*string`, `*AirtablePayload`) are addresses
  into an explicit `Heap`; `none` is the nil pointer. A nil dereference is a
  panic, modelled as `none`.
* The standard library (`fmt`, `encoding/json`, `net/http`, `net/url`) is not part
  of the repository. Of `fmt.Sprintf` the model covers, for string and `error`
  operands, text, `%%`, a verb that directly follows the percent sign, a missing
  verb, missing operands and operands left over; of `http.NewRequest` the method
  check and the default method. The rest (directives with flags, width, precision
  or argument index, quoting, the JSON encoder, the URL parser) is taken from a
  `Lib` record and left unconstrained; `Lib.plain` is an instance for the examples.
* Calls to `glog` only write to the log and `flag.Parse` only reads the command
  line; neither is part of the modelled state.
-/

set_option autoImplicit false

namespace Airtable

/-! ## Values handed to `fmt.Sprintf` -/

/-- A Go `error` value that is not nil: the name of its dynamic type and the text
returned by its `Error()` method. -/
structure GoError where
  typ : String
  msg : String
deriving DecidableEq, Repr

/-- The value `errors.New(msg)`. -/
def errorsNew (msg : String) : GoError :=
  { typ := "*errors.errorString", msg := msg }

/-- An operand of `fmt.Sprintf` as this program uses it: a string, a non-nil
`error`, or the nil interface value. -/
inductive Operand where
  | str (s : String)
  | error (e : GoError)
  | nil
deriving DecidableEq, Repr

/-- An `error` variable passed as an operand: nil or not. -/
def Operand.ofError : Option GoError → Operand
  | none => Operand.nil
  | some e => Operand.error e

/-- Bytes, as in `[]byte`; every element is a byte value. -/
abbrev Bytes := List Nat

/-! ## Data model of `airtable.go` -/

/-- A pointer: nil or an address. -/
abbrev Ptr := Option Nat

/-- The struct `AirtableRecord`. `Fields` is an `interface{}`: nil or an opaque value. -/
structure AirtableRecord where
  CreatedTime : String
  Fields : Option String
  Id : String
deriving DecidableEq, Repr

/-- The struct `AirtablePayload`. -/
structure AirtablePayload where
  Records : List AirtableRecord
deriving DecidableEq, Repr

/-- The struct `http.Client`, of which the program sets the timeout (in seconds). -/
structure HttpClient where
  Timeout : Nat
deriving DecidableEq, Repr

/-- The struct `AirtableClient`. -/
structure AirtableClient where
  Key : Ptr
  URL : Ptr
  Client : HttpClient
deriving DecidableEq, Repr

/-- The struct `AirtableRequest`. -/
structure AirtableRequest where
  Method : String
  Table : String
  Payload : Ptr
  URL : Ptr
deriving DecidableEq, Repr

/-- The message type `http.Request`, as far as the program fills it: method, the
string form of the URL that `url.Parse` returned, body bytes and the header entries
in insertion order. -/
structure HttpRequest where
  Method : String
  URL : String
  Body : Bytes
  Header : List (String × String)
deriving DecidableEq, Repr

/-- What the program reads of an `http.Response`: the status code and the result of
`ioutil.ReadAll(resp.Body)`, that is the bytes read and the read error, if any. -/
structure HttpResponse where
  StatusCode : Int
  Body : Bytes
  ReadErr : Option GoError
deriving DecidableEq, Repr

/-- The network: `c.Client.Do`, which answers a message with a response or an error. -/
abbrev Transport := HttpRequest → Except GoError HttpResponse

/-- The behaviour of the standard library that the model leaves open: every theorem
below holds for every value of this record. -/
structure Lib where
  /-- The output `fmt` produces from a directive that carries a flag, a width, a
  precision or an argument index, up to the end of the format: the characters
  after the percent sign, the operands and the index of the next operand. -/
  fmtDirective : List Char → List Operand → Nat → List Char
  /-- The function `strconv.Quote`, used by the verb `q`. -/
  strconvQuote : List Char → List Char
  /-- How `fmt` prints a non-nil `error` under a verb that does not go through `Error()`. -/
  fmtErrorVerb : Char → GoError → List Char
  /-- The encoder `json.NewEncoder(b).Encode`, applied to the payload behind the pointer. -/
  jsonEncode : Option AirtablePayload → Except GoError Bytes
  /-- The parser `url.Parse` as `http.NewRequest` applies it: the error for a string
  it rejects, and otherwise the string form of the URL the message gets (which can
  differ from the string parsed: a space in the path is escaped, an empty port is
  removed). -/
  urlParse : String → Except GoError String

/-- String cells and payload cells, addressed by position. -/
structure Heap where
  strings : List String
  payloads : List AirtablePayload
deriving DecidableEq, Repr

/-- Dereference a `*string`. -/
def Heap.loadString (h : Heap) (p : Ptr) : Option String :=
  match p with
  | none => none
  | some a => h.strings[a]?

/-- Take the address of a new string variable holding `s`. -/
def Heap.newString (h : Heap) (s : String) : Nat × Heap :=
  (h.strings.length, { h with strings := h.strings ++ [s] })

/-- Assign through a `*string`. -/
def Heap.storeString (h : Heap) (p : Ptr) (s : String) : Option Heap :=
  match p with
  | none => none
  | some a => if a < h.strings.length then some { h with strings := h.strings.set a s } else none

/-- Dereference a `*AirtablePayload`. -/
def Heap.loadPayload (h : Heap) (p : Ptr) : Option AirtablePayload :=
  match p with
  | none => none
  | some a => h.payloads[a]?

/-- Take the address of a new payload value. -/
def Heap.newPayload (h : Heap) (v : AirtablePayload) : Nat × Heap :=
  (h.payloads.length, { h with payloads := h.payloads ++ [v] })

/-- Assign through a `*AirtablePayload`. -/
def Heap.storePayload (h : Heap) (p : Ptr) (v : AirtablePayload) : Option Heap :=
  match p with
  | none => none
  | some a =>
    if a < h.payloads.length then some { h with payloads := h.payloads.set a v } else none

/-! ## `fmt.Sprintf` -/

/-- A hexadecimal digit, from `ldigits` or `udigits`. -/
def hexDigit (upper : Bool) (n : Nat) : Char :=
  if n < 10 then Char.ofNat (48 + n) else Char.ofNat ((if upper then 55 else 87) + n)

/-- The function `fmtSx` without flags: two hexadecimal digits for every byte. -/
def fmtSx (upper : Bool) (s : List Char) : List Char :=
  (s.flatMap fun c => String.utf8EncodeChar c).flatMap fun b =>
    [hexDigit upper (b.toNat / 16), hexDigit upper (b.toNat % 16)]

/-- The function `fmtString` without flags: a string under a verb; `none` is a bad verb. -/
def fmtString (lib : Lib) (v : List Char) (verb : Char) : Option (List Char) :=
  if verb = 'v' ∨ verb = 's' then some v
  else if verb = 'x' then some (fmtSx false v)
  else if verb = 'X' then some (fmtSx true v)
  else if verb = 'q' then some (lib.strconvQuote v)
  else none

/-- The function `badVerb` for a string operand: `%!verb(string=value)`. -/
def badVerbString (verb : Char) (v : List Char) : List Char :=
  "%!".data ++ [verb] ++ "(string=".data ++ v ++ ")".data

/-- The function `printArg` without flags. -/
def printArg (lib : Lib) (arg : Operand) (verb : Char) : List Char :=
  match arg with
  | Operand.nil =>
    if verb = 'T' ∨ verb = 'v' then "<nil>".data
    else "%!".data ++ [verb] ++ "(<nil>)".data
  | Operand.str s =>
    if verb = 'T' then "string".data
    else if verb = 'p' then badVerbString verb s.data
    else (fmtString lib s.data verb).getD (badVerbString verb s.data)
  | Operand.error e =>
    if verb = 'T' then e.typ.data
    else if verb = 'v' ∨ verb = 's' ∨ verb = 'x' ∨ verb = 'X' ∨ verb = 'q' then
      (fmtString lib e.msg.data verb).getD []
    else lib.fmtErrorVerb verb e

/-- One operand in the list of operands left over: `<nil>` or `type=value`. -/
def extraOperand (lib : Lib) (arg : Operand) : List Char :=
  match arg with
  | Operand.nil => "<nil>".data
  | Operand.str _ => "string=".data ++ printArg lib arg 'v'
  | Operand.error e => e.typ.data ++ "=".data ++ printArg lib arg 'v'

/-- The end of `doPrintf`: the operands left over, if any, are listed. -/
def extraArgs (lib : Lib) (a : List Operand) (argNum : Nat) : List Char :=
  if argNum < a.length then
    "%!(EXTRA ".data ++ ", ".data.intercalate ((a.drop argNum).map (extraOperand lib))
      ++ ")".data
  else []

/-- Whether a character after the percent sign starts a directive with a flag, a
width, a precision or an argument index. -/
def startsLongDirective (c : Char) : Bool :=
  c = '#' ∨ c = '0' ∨ c = '+' ∨ c = '-' ∨ c = ' ' ∨ c = '[' ∨ c = '*' ∨ c = '.' ∨
    ('1' ≤ c ∧ c ≤ '9')

/-- The format loop of `doPrintf`: text up to a percent sign is copied, `%%` prints a
percent sign, a verb prints the next operand or reports it missing, a percent
sign at the end reports a missing verb. -/
def doPrintf (lib : Lib) (a : List Operand) : List Char → Nat → List Char
  | [], argNum => extraArgs lib a argNum
  | c :: rest, argNum =>
    if c ≠ '%' then c :: doPrintf lib a rest argNum
    else
      match rest with
      | [] => "%!(NOVERB)".data ++ extraArgs lib a argNum
      | verb :: rest' =>
        if verb = '%' then '%' :: doPrintf lib a rest' argNum
        else if startsLongDirective verb then lib.fmtDirective rest a argNum
        else
          match a[argNum]? with
          | some arg => printArg lib arg verb ++ doPrintf lib a rest' (argNum + 1)
          | none => "%!".data ++ [verb] ++ "(MISSING)".data ++ doPrintf lib a rest' argNum

/-- The function `fmt.Sprintf`. -/
def Sprintf (lib : Lib) (format : String) (a : List Operand) : String :=
  ⟨doPrintf lib a format.data 0⟩

/-! ## Constants -/

def airtableKeyVariable : String := "AIRTABLE_KEY"
def airtableBaseVariable : String := "AIRTABLE_BASE"
def airtableHostVariable : String := "AIRTABLE_HOST"
def defaultAirtableHost : String := "https://api.airtable.com/v0/"
def contentHeader : String := "Content-Type"
def authorizationHeader : String := "Authorization"
def bearerString : String := "Bearer %v"
def jsonUtf8 : String := "application/json; charset=UTF-8"
def MethodGet : String := "GET"

/-! ## The environment -/

/-- The process environment: the value of every variable that is set. -/
abbrev Env := String → Option String

/-- The function `os.LookupEnv`: the value and whether the variable is set. -/
def LookupEnv (env : Env) (name : String) : String × Bool :=
  match env name with
  | some v => (v, true)
  | none => ("", false)

/-! ## `net/http` -/

/-- The table `isTokenTable`: the characters of an HTTP token. -/
def isTokenRune (c : Char) : Bool :=
  c.isAlphanum ∨ c.toNat ∈ [33, 35, 36, 37, 38, 39, 42, 43, 45, 46, 94, 95, 96, 124, 126]

/-- The function `validMethod`. -/
def validMethod (method : String) : Bool :=
  0 < method.length ∧ method.data.all isTokenRune

/-- The function `http.NewRequest`: an empty method means GET, the method must be a
token, the URL of the message is the one the parser returns; the message starts
with an empty header. -/
def httpNewRequest (lib : Lib) (method url : String) (body : Bytes) :
    Except GoError HttpRequest :=
  let method := if method = "" then "GET" else method
  if ¬ validMethod method then
    Except.error (errorsNew (Sprintf lib "net/http: invalid method %q" [Operand.str method]))
  else
    match lib.urlParse url with
    | Except.error e => Except.error e
    | Except.ok u => Except.ok { Method := method, URL := u, Body := body, Header := [] }

/-- The method `Header.Add`, for a key in canonical form: the entry is appended. -/
def headerAdd (hd : List (String × String)) (key value : String) : List (String × String) :=
  hd ++ [(key, value)]

/-- All values of a header key, in insertion order. -/
def headerValues (hd : List (String × String)) (key : String) : List String :=
  (hd.filter fun kv => kv.1 = key).map Prod.snd

/-! ## `airtable.go` -/

/-- The function `initAirtableClient`: a timeout of fifteen seconds. -/
def initAirtableClient : HttpClient :=
  { Timeout := 15 }

/-- The function `generateAirtableURL`: the pointer to the URL template and the error. -/
def generateAirtableURL (lib : Lib) (env : Env) (h : Heap) : (Ptr × Option GoError) × Heap :=
  let (airtableBaseId, isSet) := LookupEnv env airtableBaseVariable
  if !isSet then
    ((none, some (errorsNew "AirTable App ID is not set")), h)
  else
    let (airtableHost, isSet) := LookupEnv env airtableHostVariable
    let airtableHost := if !isSet then defaultAirtableHost else airtableHost
    let airtableBaseUrl := Sprintf lib (airtableHost ++ "%s") [Operand.str airtableBaseId] ++ "/%s"
    let (a, h1) := h.newString airtableBaseUrl
    ((some a, none), h1)

/-- The function `InitializeClient`: the client (nil or not), the error and the heap. -/
def InitializeClient (lib : Lib) (env : Env) (h : Heap) :
    (Option AirtableClient × Option GoError) × Heap :=
  let ((airtableUrl, err), h1) := generateAirtableURL lib env h
  match err with
  | some e =>
    ((none, some (errorsNew
      (Sprintf lib "Unable to connect to generate AirTable URL %v" [Operand.error e]))), h1)
  | none =>
    let (airtableKey, isSet) := LookupEnv env airtableKeyVariable
    if !isSet || airtableKey == "" then
      ((none, some (errorsNew "The AIRTABLE_KEY environment variable is not set")), h1)
    else
      let (k, h2) := h1.newString airtableKey
      ((some { Key := some k, URL := airtableUrl, Client := initAirtableClient }, none), h2)

/-- The method `CreateAirtableRequest`; `none` is a panic on a nil template pointer. -/
def CreateAirtableRequest (lib : Lib) (c : AirtableClient) (method table : String) (h : Heap) :
    Option (AirtableRequest × Heap) :=
  let requestRecords : List AirtableRecord := []
  match h.loadString c.URL with
  | none => none
  | some template =>
    let requestUrl := Sprintf lib template [Operand.str table]
    let (p, h1) := h.newPayload { Records := requestRecords }
    let (u, h2) := h1.newString requestUrl
    some ({ Method := method, Table := table, Payload := some p, URL := some u }, h2)

/-- The method `MakeGetRecordRequest`. -/
def MakeGetRecordRequest (lib : Lib) (c : AirtableClient) (table recordId : String) (h : Heap) :
    Option (AirtableRequest × Heap) :=
  match CreateAirtableRequest lib c MethodGet table h with
  | none => none
  | some (getRecordRequest, h1) =>
    match h1.loadString getRecordRequest.URL with
    | none => none
    | some url =>
      match h1.storeString getRecordRequest.URL
          (Sprintf lib "%s/%s" [Operand.str url, Operand.str recordId]) with
      | none => none
      | some h2 =>
        match h2.loadString c.URL with
        | none => none
        | some _ => some (getRecordRequest, h2)

/-- The method `MakeFilterRecordRequest`. -/
def MakeFilterRecordRequest (lib : Lib) (c : AirtableClient) (table filterQuery : String)
    (h : Heap) : Option (AirtableRequest × Heap) :=
  match CreateAirtableRequest lib c MethodGet table h with
  | none => none
  | some (filterRecordRequest, h1) =>
    match h1.loadString filterRecordRequest.URL with
    | none => none
    | some url =>
      match h1.storeString filterRecordRequest.URL
          (Sprintf lib "%s%s" [Operand.str url, Operand.str filterQuery]) with
      | none => none
      | some h2 =>
        match h2.loadString c.URL with
        | none => none
        | some _ => some (filterRecordRequest, h2)

/-- The method `AddRecordToRequest`; `none` is a panic on a nil payload pointer. -/
def AddRecordToRequest (r : AirtableRequest) (rec : AirtableRecord) (h : Heap) : Option Heap :=
  match h.loadPayload r.Payload with
  | none => none
  | some p => h.storePayload r.Payload { p with Records := p.Records ++ [rec] }

/-- The method `buildHttpRequest`; `none` is a panic on a nil key pointer. -/
def buildHttpRequest (lib : Lib) (r : AirtableRequest) (url : String) (key : Ptr) (h : Heap) :
    Option (Except GoError HttpRequest) :=
  match lib.jsonEncode (h.loadPayload r.Payload) with
  | Except.error err => some (Except.error err)
  | Except.ok b =>
    match httpNewRequest lib r.Method url b with
    | Except.error err => some (Except.error err)
    | Except.ok httpReq =>
      match h.loadString key with
      | none => none
      | some k =>
        let hd := headerAdd httpReq.Header contentHeader jsonUtf8
        let hd := headerAdd hd authorizationHeader (Sprintf lib bearerString [Operand.str k])
        some (Except.ok { httpReq with Header := hd })

/-- What a call of `SendRequest` returns and does: the bytes (nil or not), the error
and the messages handed to the network. -/
structure SendResult where
  bytes : Option Bytes
  err : Option GoError
  sent : List HttpRequest
deriving DecidableEq, Repr

/-- The method `SendRequest`; the request is nil or not, `none` is a panic. -/
def SendRequest (lib : Lib) (net : Transport) (c : AirtableClient)
    (req : Option AirtableRequest) (h : Heap) : Option SendResult :=
  match req with
  | none =>
    some { bytes := none, err := some (errorsNew "The request URL in SendRequest is nil"),
           sent := [] }
  | some r =>
    match h.loadString r.URL with
    | none => none
    | some url =>
      match buildHttpRequest lib r url c.Key h with
      | none => none
      | some (Except.error err) => some { bytes := none, err := some err, sent := [] }
      | some (Except.ok httpReq) =>
        match net httpReq with
        | Except.error err => some { bytes := none, err := some err, sent := [httpReq] }
        | Except.ok resp =>
          let respBytes := resp.Body
          let err := resp.ReadErr
          if resp.StatusCode ≥ 300 then
            some { bytes := none,
                   err := some (errorsNew
                     (Sprintf lib "Airtable response is an error %s" [Operand.ofError err])),
                   sent := [httpReq] }
          else
            some { bytes := some respBytes, err := none, sent := [httpReq] }

/-! ## Sequences of builder calls -/

/-- A call of one of the request builders on a client, or of `AddRecordToRequest` on
a request. -/
inductive Call where
  | create (method table : String)
  | getRecord (table recordId : String)
  | filterRecord (table filterQuery : String)
  | addRecord (r : AirtableRequest) (rec : AirtableRecord)
deriving DecidableEq, Repr

/-- The heap after a call. -/
def Call.run (lib : Lib) (c : AirtableClient) (call : Call) (h : Heap) : Option Heap :=
  match call with
  | Call.create m t => (CreateAirtableRequest lib c m t h).map Prod.snd
  | Call.getRecord t r => (MakeGetRecordRequest lib c t r h).map Prod.snd
  | Call.filterRecord t q => (MakeFilterRecordRequest lib c t q h).map Prod.snd
  | Call.addRecord r rec => AddRecordToRequest r rec h

/-- The heap after a sequence of calls, in order. -/
def runCalls (lib : Lib) (c : AirtableClient) : List Call → Heap → Option Heap
  | [], h => some h
  | call :: calls, h =>
    match call.run lib c h with
    | none => none
    | some h1 => runCalls lib c calls h1

/-- Add the records of a list to a request, in order. -/
def addRecords (r : AirtableRequest) : List AirtableRecord → Heap → Option Heap
  | [], h => some h
  | x :: xs, h =>
    match AddRecordToRequest r x h with
    | none => none
    | some h1 => addRecords r xs h1

/-! ## Examples -/

/-- The double quote. -/
def dquote : Char := Char.ofNat 34

/-- The backslash. -/
def backslash : Char := Char.ofNat 92

/-- One character under `strconv.Quote`; characters outside ASCII are taken as
printable. -/
def quoteChar (c : Char) : List Char :=
  if c = dquote ∨ c = backslash then [backslash, c]
  else if c.toNat = 7 then [backslash, 'a']
  else if c.toNat = 8 then [backslash, 'b']
  else if c.toNat = 12 then [backslash, 'f']
  else if c.toNat = 10 then [backslash, 'n']
  else if c.toNat = 13 then [backslash, 'r']
  else if c.toNat = 9 then [backslash, 't']
  else if c.toNat = 11 then [backslash, 'v']
  else if c.toNat < 32 ∨ c.toNat = 127 then
    [backslash, 'x', hexDigit false (c.toNat / 16), hexDigit false (c.toNat % 16)]
  else [c]

/-- The function `strconv.Quote`, with characters outside ASCII taken as printable. -/
def exQuote (s : List Char) : List Char :=
  [dquote] ++ s.flatMap quoteChar ++ [dquote]

/-- Whether `encoding/json` writes a character of a string as it is: printable
ASCII other than the double quote, the backslash, `<`, `>` and `&`. -/
def jsonPlainChar (c : Char) : Bool :=
  32 ≤ c.toNat ∧ c.toNat ≤ 126 ∧ c.toNat ∉ [34, 38, 60, 62, 92]

/-- Whether the example encoder covers a record: no fields value, and strings that
need no escaping. -/
def jsonCovers (r : AirtableRecord) : Bool :=
  r.Fields = none ∧ r.CreatedTime.data.all jsonPlainChar ∧ r.Id.data.all jsonPlainChar

/-- A key and a string value of a JSON object; nothing for the empty string
(`omitempty`). -/
def jsonMember (key value : String) : List String :=
  if value = "" then []
  else [String.mk ([dquote] ++ key.data ++ [dquote, ':', dquote] ++ value.data ++ [dquote])]

/-- The JSON text of a record that `jsonCovers` holds of. -/
def jsonRecord (r : AirtableRecord) : String :=
  "\x7b" ++ ",".intercalate (jsonMember "createdTime" r.CreatedTime ++ jsonMember "id" r.Id)
    ++ "\x7d"

/-- The JSON text `Encode` writes for the payload behind a pointer, a line feed at its
end: `null` for the nil pointer, an empty object for an empty record list. -/
def jsonPayload (p : Option AirtablePayload) : String :=
  match p with
  | none => "null\n"
  | some payload =>
    if payload.Records = [] then "\x7b\x7d\n"
    else
      String.mk ([Char.ofNat 123, dquote] ++ "records".data ++ [dquote, ':', '[']) ++
        ",".intercalate (payload.Records.map jsonRecord) ++ "]\x7d\n"

/-- The example encoder: the bytes of `jsonPayload` when every record is covered, and
an error otherwise. -/
def exJsonEncode (p : Option AirtablePayload) : Except GoError Bytes :=
  match p with
  | some payload =>
    if payload.Records.all jsonCovers then
      Except.ok ((jsonPayload p).data.map Char.toNat)
    else Except.error (errorsNew "payload outside the example encoder")
  | none => Except.ok ((jsonPayload p).data.map Char.toNat)

/-- The rest of `s` after the leading characters `p`, if `s` starts with them. -/
def dropLeading : List Char → List Char → Option (List Char)
  | [], s => some s
  | _ :: _, [] => none
  | a :: p, b :: s => if a = b then dropLeading p s else none

/-- A character the example parser takes in a host name. -/
def urlHostChar (c : Char) : Bool :=
  c.isAlphanum ∨ c = '.' ∨ c = '-'

/-- A character the example parser takes in a path: an unreserved character, the
slash or the space. -/
def urlPathChar (c : Char) : Bool :=
  c.isAlphanum ∨ c = '-' ∨ c = '_' ∨ c = '.' ∨ c = '~' ∨ c = '/' ∨ c = ' '

/-- A character the example parser takes in a query. -/
def urlQueryChar (c : Char) : Bool :=
  c.isAlphanum ∨ c = '-' ∨ c = '_' ∨ c = '.' ∨ c = '~' ∨ c = '=' ∨ c = '&'

/-- The escaped form of a path of such characters: a space becomes `%20`. -/
def urlEscapePath (path : List Char) : List Char :=
  path.flatMap fun c => if c = ' ' then "%20".data else [c]

/-- The host, the path and the query of the example parser: after the scheme, a host
name, then nothing or a path that starts with a slash, then nothing or a question
mark and a query. The string form keeps all of it but for the spaces of the path. -/
def urlAfterScheme (rest : List Char) : Option (List Char) :=
  let host := rest.takeWhile urlHostChar
  let after := rest.dropWhile urlHostChar
  let path := after.takeWhile fun c => c ≠ '?'
  let query := (after.dropWhile fun c => c ≠ '?').drop 1
  if host ≠ [] ∧ path.all urlPathChar ∧ (path = [] ∨ path.head? = some '/') ∧
      query.all urlQueryChar then
    some (host ++ urlEscapePath path ++ after.dropWhile fun c => c ≠ '?')
  else none

/-- The example parser: the string form that `url.Parse` gives for a URL with scheme
`http` or `https`, a host name, a path and a query of the characters above; an
error for every other string. -/
def exUrlParse (url : String) : Except GoError String :=
  match dropLeading "https://".data url.data with
  | some rest =>
    match urlAfterScheme rest with
    | some u => Except.ok (String.mk ("https://".data ++ u))
    | none => Except.error (errorsNew "URL outside the example parser")
  | none =>
    match dropLeading "http://".data url.data with
    | some rest =>
      match urlAfterScheme rest with
      | some u => Except.ok (String.mk ("http://".data ++ u))
      | none => Except.error (errorsNew "URL outside the example parser")
    | none => Except.error (errorsNew "URL outside the example parser")

/-- A library for the examples. Quoting, the encoder and the parser follow the
library on the inputs described at `exQuote`, `exJsonEncode` and `exUrlParse`;
directives with flags and other verbs on errors print nothing. -/
def Lib.plain : Lib where
  fmtDirective := fun _ _ _ => []
  strconvQuote := exQuote
  fmtErrorVerb := fun _ _ => []
  jsonEncode := exJsonEncode
  urlParse := exUrlParse

/-- An environment with the three variables given and nothing else set. -/
def mkEnv (key base host : Option String) : Env := fun name =>
  if name = airtableKeyVariable then key
  else if name = airtableBaseVariable then base
  else if name = airtableHostVariable then host
  else none

/-- The empty heap. -/
def Heap.empty : Heap :=
  { strings := [], payloads := [] }

/-- A heap with a key and a URL template. -/
def exHeap : Heap :=
  { strings := ["keyvariable", "https://api.example.com/v0/basevariable/%s"], payloads := [] }

/-- A client on `exHeap`. -/
def exClient : AirtableClient :=
  { Key := some 0, URL := some 1, Client := initAirtableClient }

/-- A record with an identifier only. -/
def exRecord (id : String) : AirtableRecord :=
  { CreatedTime := "", Fields := none, Id := id }

/-- The request `CreateAirtableRequest("GET", "Users")` returns on `exClient`. -/
def exRequest : AirtableRequest :=
  { Method := "GET", Table := "Users", Payload := some 0, URL := some 2 }

/-- The heap after `CreateAirtableRequest("GET", "Users")` on `exClient` and `exHeap`. -/
def exHeap1 : Heap :=
  { strings := ["keyvariable", "https://api.example.com/v0/basevariable/%s",
      "https://api.example.com/v0/basevariable/Users"],
    payloads := [{ Records := [] }] }

/-- The request `CreateAirtableRequest("", "My Table")` returns on `exClient`: an
empty method and a table name with a space. -/
def exRequestNoMethod : AirtableRequest :=
  { Method := "", Table := "My Table", Payload := some 0, URL := some 2 }

/-- The heap after `CreateAirtableRequest("", "My Table")` on `exClient` and `exHeap`. -/
def exHeapNoMethod : Heap :=
  { strings := ["keyvariable", "https://api.example.com/v0/basevariable/%s",
      "https://api.example.com/v0/basevariable/My Table"],
    payloads := [{ Records := [] }] }

/-- The message `buildHttpRequest` returns for `exRequestNoMethod` under `Lib.plain`. -/
def exMessageNoMethod : HttpRequest :=
  { Method := "GET", URL := "https://api.example.com/v0/basevariable/My%20Table",
    Body := [123, 125, 10],
    Header := [("Content-Type", "application/json; charset=UTF-8"),
      ("Authorization", "Bearer keyvariable")] }

/-- A sequence of builder calls. -/
def exCalls : List Call :=
  [Call.create "GET" "Users", Call.getRecord "Users" "rec123",
   Call.addRecord exRequest (exRecord "rec1"), Call.filterRecord "Users" "?maxRecords=1"]

/-- The heap after `exCalls` on `exClient` and `exHeap`. -/
def exHeap2 : Heap :=
  { strings := ["keyvariable", "https://api.example.com/v0/basevariable/%s",
      "https://api.example.com/v0/basevariable/Users",
      "https://api.example.com/v0/basevariable/Users/rec123",
      "https://api.example.com/v0/basevariable/Users?maxRecords=1"],
    payloads := [{ Records := [exRecord "rec1"] }, { Records := [] }, { Records := [] }] }

/-- The message `buildHttpRequest` returns for `exRequest` under `Lib.plain`. -/
def exMessage : HttpRequest :=
  { Method := "GET", URL := "https://api.example.com/v0/basevariable/Users",
    Body := [123, 125, 10],
    Header := [("Content-Type", "application/json; charset=UTF-8"),
      ("Authorization", "Bearer keyvariable")] }

/-- A response with status 200 whose body read failed after two bytes. -/
def exResponse : HttpResponse :=
  { StatusCode := 200, Body := [104, 105], ReadErr := some (errorsNew "unexpected EOF") }

/-- A network that answers every message with the given response. -/
def answer (resp : HttpResponse) : Transport := fun _ => Except.ok resp

/-! ## Lemmas on `fmt.Sprintf` -/

theorem startsLongDirective_s : startsLongDirective 's' = false := by decide

theorem startsLongDirective_v : startsLongDirective 'v' = false := by decide

/-- A character other than the percent sign is copied to the output. -/
theorem doPrintf_cons (lib : Lib) (a : List Operand) (c : Char) (rest : List Char)
    (argNum : Nat) (hc : c ≠ '%') :
    doPrintf lib a (c :: rest) argNum = c :: doPrintf lib a rest argNum := by
  cases rest <;> simp [doPrintf, hc]

/-- Text without a percent sign is copied to the output. -/
theorem doPrintf_text (lib : Lib) (a : List Operand) (text rest : List Char) (argNum : Nat)
    (htext : '%' ∉ text) :
    doPrintf lib a (text ++ rest) argNum = text ++ doPrintf lib a rest argNum := by
  induction text with
  | nil => rfl
  | cons c text ih =>
    simp only [List.mem_cons, not_or] at htext
    have hc : c ≠ '%' := fun e => htext.1 e.symm
    rw [List.cons_append, doPrintf_cons lib a c _ argNum hc, ih htext.2, List.cons_append]

/-- A format that ends in `%s` after text without a percent sign, with one string. -/
theorem Sprintf_text_s (lib : Lib) (text t : String) (htext : '%' ∉ text.data) :
    Sprintf lib (text ++ "%s") [Operand.str t] = text ++ t := by
  apply String.ext
  simp only [Sprintf, String.data_append]
  rw [doPrintf_text lib _ _ _ _ htext]
  simp [doPrintf, startsLongDirective_s, printArg, fmtString, extraArgs]

theorem Sprintf_s_slash_s (lib : Lib) (u r : String) :
    Sprintf lib "%s/%s" [Operand.str u, Operand.str r] = u ++ "/" ++ r := by
  apply String.ext
  simp [Sprintf, doPrintf, startsLongDirective_s, printArg, fmtString, extraArgs]

theorem Sprintf_s_s (lib : Lib) (u q : String) :
    Sprintf lib "%s%s" [Operand.str u, Operand.str q] = u ++ q := by
  apply String.ext
  simp [Sprintf, doPrintf, startsLongDirective_s, printArg, fmtString, extraArgs]

theorem Sprintf_bearer (lib : Lib) (k : String) :
    Sprintf lib bearerString [Operand.str k] = "Bearer " ++ k := by
  apply String.ext
  simp [Sprintf, bearerString, doPrintf, startsLongDirective_v, printArg, fmtString, extraArgs]

/-! ## Lemmas on the heap -/

theorem getElem?_append_pair_fst {α : Type} (l : List α) (x y : α) :
    (l ++ [x, y])[l.length]? = some x := by
  rw [List.getElem?_append_right (le_refl _)]
  simp

theorem getElem?_append_pair_snd {α : Type} (l : List α) (x y : α) :
    (l ++ [x, y])[l.length + 1]? = some y := by
  rw [List.getElem?_append_right (by omega)]
  simp

/-! ## Lemmas on the request builders -/

/-- A pointer that holds a string is an address below the number of string cells. -/
theorem loadString_some (h : Heap) (p : Ptr) (s : String) (hp : h.loadString p = some s) :
    ∃ a, p = some a ∧ a < h.strings.length ∧ h.strings[a]? = some s := by
  cases p with
  | none => simp [Heap.loadString] at hp
  | some a =>
    refine ⟨a, rfl, ?_, hp⟩
    by_contra hlt
    simp only [Heap.loadString] at hp
    rw [List.getElem?_eq_none (by omega)] at hp
    cases hp

/-- The request and the heap `CreateAirtableRequest` returns on a client whose
template pointer holds `template`. -/
theorem CreateAirtableRequest_eq (lib : Lib) (c : AirtableClient) (m t template : String)
    (h : Heap) (hu : h.loadString c.URL = some template) :
    CreateAirtableRequest lib c m t h =
      some ({ Method := m, Table := t, Payload := some h.payloads.length,
              URL := some h.strings.length },
            { strings := h.strings ++ [Sprintf lib template [Operand.str t]],
              payloads := h.payloads ++ [{ Records := [] }] }) := by
  simp [CreateAirtableRequest, hu, Heap.newPayload, Heap.newString]

/-- When `CreateAirtableRequest` returns, the template pointer holds a string. -/
theorem CreateAirtableRequest_template (lib : Lib) (c : AirtableClient) (m t : String)
    (h h1 : Heap) (r : AirtableRequest) (hc : CreateAirtableRequest lib c m t h = some (r, h1)) :
    ∃ template, h.loadString c.URL = some template := by
  cases hu : h.loadString c.URL with
  | none => simp [CreateAirtableRequest, hu] at hc
  | some template => exact ⟨template, rfl⟩

theorem set_concat_length {α : Type} (l : List α) (x y : α) :
    (l ++ [x]).set l.length y = l ++ [y] := by
  induction l with
  | nil => rfl
  | cons z l ih => simp [ih]

/-- The request and the heap `MakeGetRecordRequest` returns. -/
theorem MakeGetRecordRequest_eq (lib : Lib) (c : AirtableClient) (t r template : String)
    (h : Heap) (hu : h.loadString c.URL = some template) :
    MakeGetRecordRequest lib c t r h =
      some ({ Method := "GET", Table := t, Payload := some h.payloads.length,
              URL := some h.strings.length },
            { strings := h.strings ++ [Sprintf lib template [Operand.str t] ++ "/" ++ r],
              payloads := h.payloads ++ [{ Records := [] }] }) := by
  obtain ⟨a, hca, ha, hget⟩ := loadString_some h c.URL template hu
  simp only [MakeGetRecordRequest, MethodGet,
    CreateAirtableRequest_eq lib c "GET" t template h hu, Heap.loadString,
    Heap.storeString, List.getElem?_concat_length, Sprintf_s_slash_s, hca,
    List.length_append, List.length_singleton, Nat.lt_succ_self, if_true,
    set_concat_length, List.getElem?_append_left ha, hget]

/-- The request and the heap `MakeFilterRecordRequest` returns. -/
theorem MakeFilterRecordRequest_eq (lib : Lib) (c : AirtableClient) (t q template : String)
    (h : Heap) (hu : h.loadString c.URL = some template) :
    MakeFilterRecordRequest lib c t q h =
      some ({ Method := "GET", Table := t, Payload := some h.payloads.length,
              URL := some h.strings.length },
            { strings := h.strings ++ [Sprintf lib template [Operand.str t] ++ q],
              payloads := h.payloads ++ [{ Records := [] }] }) := by
  obtain ⟨a, hca, ha, hget⟩ := loadString_some h c.URL template hu
  simp only [MakeFilterRecordRequest, MethodGet,
    CreateAirtableRequest_eq lib c "GET" t template h hu, Heap.loadString,
    Heap.storeString, List.getElem?_concat_length, Sprintf_s_s, hca,
    List.length_append, List.length_singleton, Nat.lt_succ_self, if_true,
    set_concat_length, List.getElem?_append_left ha, hget]

/-- Adding records one after the other appends them to the record list. -/
theorem addRecords_eq (r : AirtableRequest) (xs : List AirtableRecord) :
    ∀ (h : Heap) (L : List AirtableRecord), h.loadPayload r.Payload = some { Records := L } →
      ∃ h2, addRecords r xs h = some h2 ∧
        h2.loadPayload r.Payload = some { Records := L ++ xs } := by
  induction xs with
  | nil => intro h L hL; exact ⟨h, rfl, by simpa using hL⟩
  | cons x xs ih =>
    intro h L hL
    cases hp : r.Payload with
    | none => simp [Heap.loadPayload, hp] at hL
    | some a =>
      simp only [Heap.loadPayload, hp] at hL
      have ha : a < h.payloads.length := by
        by_contra hlt
        rw [List.getElem?_eq_none (by omega)] at hL
        cases hL
      have hstep : AddRecordToRequest r x h =
          some { h with payloads := h.payloads.set a { Records := L ++ [x] } } := by
        simp [AddRecordToRequest, Heap.loadPayload, Heap.storePayload, hp, hL, ha]
      have hload : Heap.loadPayload { h with payloads := h.payloads.set a { Records := L ++ [x] } }
          r.Payload = some { Records := L ++ [x] } := by
        simp [Heap.loadPayload, hp, ha]
      obtain ⟨h2, hrun, hres⟩ := ih _ (L ++ [x]) hload
      refine ⟨h2, ?_, ?_⟩
      · simp only [addRecords, hstep]
        exact hrun
      · simpa [hp] using hres

/-- The client and the heap `InitializeClient` returns when the key is set and not
empty and the base is set. -/
theorem InitializeClient_eq (lib : Lib) (env : Env) (h : Heap) (k b : String)
    (hk : env airtableKeyVariable = some k) (hk0 : k ≠ "")
    (hb : env airtableBaseVariable = some b) :
    InitializeClient lib env h =
      ((some { Key := some (h.strings.length + 1), URL := some h.strings.length,
               Client := initAirtableClient }, none),
       { strings := h.strings ++
           [Sprintf lib ((env airtableHostVariable).getD defaultAirtableHost ++ "%s")
             [Operand.str b] ++ "/%s"] ++ [k],
         payloads := h.payloads }) := by
  cases hh : env airtableHostVariable <;>
    simp [InitializeClient, generateAirtableURL, LookupEnv, hb, hk, hh, hk0, Heap.newString]

/-- The message `http.NewRequest` returns when it returns one. -/
theorem httpNewRequest_ok (lib : Lib) (m url : String) (b : Bytes) (req : HttpRequest)
    (hreq : httpNewRequest lib m url b = Except.ok req) :
    ∃ u, lib.urlParse url = Except.ok u ∧
      req = { Method := if m = "" then "GET" else m, URL := u, Body := b, Header := [] } := by
  unfold httpNewRequest at hreq
  by_cases hv : validMethod (if m = "" then "GET" else m) = true
  · cases hp : lib.urlParse url with
    | error e => simp [hv, hp] at hreq
    | ok u =>
      simp only [hv, hp, not_true_eq_false, if_false, Except.ok.injEq] at hreq
      exact ⟨u, rfl, hreq.symm⟩
  · simp [hv] at hreq

/-- The messages `SendRequest` hands to the network once the message is built. -/
theorem SendRequest_sent (lib : Lib) (net : Transport) (c : AirtableClient)
    (r : AirtableRequest) (h : Heap) (url : String) (msg : HttpRequest)
    (hu : h.loadString r.URL = some url)
    (hb : buildHttpRequest lib r url c.Key h = some (Except.ok msg)) :
    ∃ res, SendRequest lib net c (some r) h = some res ∧ res.sent = [msg] := by
  simp only [SendRequest, hu, hb]
  cases net msg with
  | error e => exact ⟨_, rfl, rfl⟩
  | ok resp =>
    simp only
    split <;> exact ⟨_, rfl, rfl⟩

/-- The message `buildHttpRequest` returns when it returns one. -/
theorem buildHttpRequest_ok (lib : Lib) (r : AirtableRequest) (url : String) (key : Ptr)
    (h : Heap) (msg : HttpRequest) (hb : buildHttpRequest lib r url key h = some (Except.ok msg)) :
    ∃ b k u, lib.jsonEncode (h.loadPayload r.Payload) = Except.ok b ∧
      h.loadString key = some k ∧ lib.urlParse url = Except.ok u ∧
      msg = { Method := if r.Method = "" then "GET" else r.Method, URL := u, Body := b,
              Header := [(contentHeader, jsonUtf8),
                (authorizationHeader, Sprintf lib bearerString [Operand.str k])] } := by
  unfold buildHttpRequest at hb
  cases hj : lib.jsonEncode (h.loadPayload r.Payload) with
  | error e => simp [hj] at hb
  | ok b =>
    cases hn : httpNewRequest lib r.Method url b with
    | error e => simp [hj, hn] at hb
    | ok req =>
      cases hk : h.loadString key with
      | none => simp [hj, hn, hk] at hb
      | some k =>
        obtain ⟨u, hu, hreq⟩ := httpNewRequest_ok lib r.Method url b req hn
        simp only [hj, hn, hk, Option.some.injEq, Except.ok.injEq] at hb
        refine ⟨b, k, u, rfl, rfl, hu, ?_⟩
        rw [← hb, hreq]
        simp [headerAdd]

/-- A string cell that exists keeps its value when a cell is added at the end. -/
theorem loadString_concat (h : Heap) (v : String) (ps : List AirtablePayload) (p : Ptr)
    (s : String) (hp : h.loadString p = some s) :
    Heap.loadString { strings := h.strings ++ [v], payloads := ps } p = some s := by
  obtain ⟨a, hpa, ha, hget⟩ := loadString_some h p s hp
  subst hpa
  simp only [Heap.loadString, List.getElem?_append_left ha, hget]

/-- `AddRecordToRequest` writes no string cell. -/
theorem AddRecordToRequest_strings (r : AirtableRequest) (x : AirtableRecord) (h h1 : Heap)
    (hadd : AddRecordToRequest r x h = some h1) : h1.strings = h.strings := by
  unfold AddRecordToRequest at hadd
  cases hl : h.loadPayload r.Payload with
  | none => simp [hl] at hadd
  | some pl =>
    simp only [hl] at hadd
    cases hp : r.Payload with
    | none => simp [Heap.storePayload, hp] at hadd
    | some a =>
      simp only [Heap.storePayload, hp] at hadd
      split at hadd
      · cases hadd; rfl
      · cases hadd

/-- A builder call leaves every string cell that exists as it is. -/
theorem Call_run_loadString (lib : Lib) (c : AirtableClient) (call : Call) (h h1 : Heap)
    (hrun : call.run lib c h = some h1) (p : Ptr) (s : String)
    (hp : h.loadString p = some s) : h1.loadString p = some s := by
  cases call with
  | create m t =>
    cases hu : h.loadString c.URL with
    | none => simp [Call.run, CreateAirtableRequest, hu] at hrun
    | some template =>
      simp only [Call.run, CreateAirtableRequest_eq lib c m t template h hu, Option.map_some',
        Option.some.injEq] at hrun
      subst hrun
      exact loadString_concat h _ _ p s hp
  | getRecord t r =>
    cases hu : h.loadString c.URL with
    | none => simp [Call.run, MakeGetRecordRequest, CreateAirtableRequest, hu] at hrun
    | some template =>
      simp only [Call.run, MakeGetRecordRequest_eq lib c t r template h hu, Option.map_some',
        Option.some.injEq] at hrun
      subst hrun
      exact loadString_concat h _ _ p s hp
  | filterRecord t q =>
    cases hu : h.loadString c.URL with
    | none => simp [Call.run, MakeFilterRecordRequest, CreateAirtableRequest, hu] at hrun
    | some template =>
      simp only [Call.run, MakeFilterRecordRequest_eq lib c t q template h hu, Option.map_some',
        Option.some.injEq] at hrun
      subst hrun
      exact loadString_concat h _ _ p s hp
  | addRecord r x =>
    have hstr := AddRecordToRequest_strings r x h h1 hrun
    cases p with
    | none => simp [Heap.loadString] at hp
    | some a =>
      simp only [Heap.loadString] at hp ⊢
      rw [hstr]
      exact hp

/-- A sequence of builder calls leaves every string cell that exists as it is. -/
theorem runCalls_loadString (lib : Lib) (c : AirtableClient) (calls : List Call) :
    ∀ (h h1 : Heap), runCalls lib c calls h = some h1 →
      ∀ (p : Ptr) (s : String), h.loadString p = some s → h1.loadString p = some s := by
  induction calls with
  | nil =>
    intro h h1 hrun p s hp
    simp only [runCalls, Option.some.injEq] at hrun
    subst hrun
    exact hp
  | cons call calls ih =>
    intro h h1 hrun p s hp
    cases hstep : call.run lib c h with
    | none => simp [runCalls, hstep] at hrun
    | some h0 =>
      simp only [runCalls, hstep] at hrun
      exact ih h0 h1 hrun p s (Call_run_loadString lib c call h h0 hstep p s hp)

/-! ## Claims -/

/-- C1: `InitializeClient` returns an error exactly when `AIRTABLE_KEY` is unset or
empty or `AIRTABLE_BASE` is unset; with an error the client is nil, and without one
the client is not nil. -/
theorem InitializeClient_error_iff (lib : Lib) (env : Env) (h : Heap) :
    ((InitializeClient lib env h).1.2.isSome ↔
      (env airtableKeyVariable = none ∨ env airtableKeyVariable = some "" ∨
        env airtableBaseVariable = none)) ∧
    ((InitializeClient lib env h).1.2.isSome → (InitializeClient lib env h).1.1 = none) ∧
    ((InitializeClient lib env h).1.2 = none → (InitializeClient lib env h).1.1.isSome) := by
  cases hb : env airtableBaseVariable with
  | none => simp [InitializeClient, generateAirtableURL, LookupEnv, hb]
  | some b =>
    cases hk : env airtableKeyVariable with
    | none => simp [InitializeClient, generateAirtableURL, LookupEnv, hb, hk, Heap.newString]
    | some k =>
      by_cases hk0 : k = ""
      · simp [InitializeClient, generateAirtableURL, LookupEnv, hb, hk, hk0, Heap.newString]
      · simp [InitializeClient, generateAirtableURL, LookupEnv, hb, hk, hk0, Heap.newString]

/-- C2, as stated, fails: with `AIRTABLE_HOST` set to `https://example.com/%%/` the
template is `https://example.com/%/basevariable/%s`, not host, base and `/%s`
concatenated. -/
theorem InitializeClient_template_counterexample :
    ∃ c h1,
      InitializeClient Lib.plain
        (mkEnv (some "keyvariable") (some "basevariable") (some "https://example.com/%%/"))
        Heap.empty = ((some c, none), h1) ∧
      h1.loadString c.Key = some "keyvariable" ∧
      h1.loadString c.URL = some "https://example.com/%/basevariable/%s" ∧
      h1.loadString c.URL ≠ some ("https://example.com/%%/" ++ "basevariable" ++ "/%s") := by
  refine ⟨{ Key := some 1, URL := some 0, Client := initAirtableClient },
    { strings := ["https://example.com/%/basevariable/%s", "keyvariable"], payloads := [] },
    by rfl, by rfl, by rfl, by decide⟩

/-- C2, amended: when `InitializeClient` runs with key `k` (not empty) and base `b`,
it succeeds and the client's key is `k`; and when the host (the value of
`AIRTABLE_HOST`, or the default host when unset) contains no percent sign, the
client's template is the host, `b` and `/%s` concatenated. -/
theorem InitializeClient_template (lib : Lib) (env : Env) (h : Heap) (k b : String)
    (hk : env airtableKeyVariable = some k) (hk0 : k ≠ "")
    (hb : env airtableBaseVariable = some b) :
    ∃ c h1, InitializeClient lib env h = ((some c, none), h1) ∧
      h1.loadString c.Key = some k ∧
      ('%' ∉ ((env airtableHostVariable).getD defaultAirtableHost).data →
        h1.loadString c.URL =
          some ((env airtableHostVariable).getD defaultAirtableHost ++ b ++ "/%s")) := by
  rw [InitializeClient_eq lib env h k b hk hk0 hb]
  refine ⟨_, _, rfl, ?_, ?_⟩
  · simp only [Heap.loadString, List.append_assoc, List.singleton_append]
    exact getElem?_append_pair_snd _ _ _
  · intro hhost
    rw [Sprintf_text_s lib _ b hhost]
    simp only [Heap.loadString, List.append_assoc, List.singleton_append]
    exact getElem?_append_pair_fst _ _ _

/-- C2, amended, at the environment of the test: key `keyvariable`, base
`basevariable`, host unset; the template is
`https://api.airtable.com/v0/basevariable/%s`. -/
theorem InitializeClient_template_witness :
    mkEnv (some "keyvariable") (some "basevariable") none airtableKeyVariable
        = some "keyvariable" ∧
      "keyvariable" ≠ "" ∧
      mkEnv (some "keyvariable") (some "basevariable") none airtableBaseVariable
        = some "basevariable" ∧
      ∃ c h1, InitializeClient Lib.plain (mkEnv (some "keyvariable") (some "basevariable") none)
          Heap.empty = ((some c, none), h1) ∧
        h1.loadString c.Key = some "keyvariable" ∧
        h1.loadString c.URL = some ("https://api.airtable.com/v0/" ++ "basevariable" ++ "/%s") :=
  ⟨by decide, by decide, by decide,
    match InitializeClient_template Lib.plain
      (mkEnv (some "keyvariable") (some "basevariable") none)
      Heap.empty "keyvariable" "basevariable" (by decide) (by decide) (by decide) with
    | ⟨c, h1, hinit, hkey, hurl⟩ => ⟨c, h1, hinit, hkey, hurl (by decide)⟩⟩

/-- C3: on a client whose template is `P` followed by `%s`, with no percent sign in
`P`, `CreateAirtableRequest(m, t)` returns a request with method `m`, table `t`, an
empty record list and URL `P` followed by `t`. -/
theorem CreateAirtableRequest_url (lib : Lib) (c : AirtableClient) (h : Heap)
    (P m t : String) (hu : h.loadString c.URL = some (P ++ "%s")) (hP : '%' ∉ P.data) :
    ∃ r h1, CreateAirtableRequest lib c m t h = some (r, h1) ∧
      r.Method = m ∧ r.Table = t ∧
      h1.loadPayload r.Payload = some { Records := [] } ∧
      h1.loadString r.URL = some (P ++ t) := by
  rw [CreateAirtableRequest_eq lib c m t _ h hu, Sprintf_text_s lib P t hP]
  refine ⟨_, _, rfl, rfl, rfl, ?_, ?_⟩
  · simp [Heap.loadPayload]
  · simp [Heap.loadString]

/-- C3 at the template `https://api.example.com/v0/basevariable/%s` with method `GET`
and table `Users`. -/
theorem CreateAirtableRequest_url_witness :
    exHeap.loadString exClient.URL = some ("https://api.example.com/v0/basevariable/" ++ "%s") ∧
      '%' ∉ "https://api.example.com/v0/basevariable/".data ∧
      ∃ r h1, CreateAirtableRequest Lib.plain exClient "GET" "Users" exHeap = some (r, h1) ∧
        r.Method = "GET" ∧ r.Table = "Users" ∧
        h1.loadPayload r.Payload = some { Records := [] } ∧
        h1.loadString r.URL = some ("https://api.example.com/v0/basevariable/" ++ "Users") :=
  ⟨by decide, by decide,
    CreateAirtableRequest_url Lib.plain exClient exHeap
      "https://api.example.com/v0/basevariable/" "GET" "Users" (by decide) (by decide)⟩

/-- C4: with `U` the URL of `CreateAirtableRequest("GET", t)`, `MakeGetRecordRequest(t, r)`
is a GET request with an empty record list and URL `U`, a slash and `r`, and
`MakeFilterRecordRequest(t, q)` is a GET request with an empty record list and URL
`U` followed by `q`. -/
theorem MakeRecordRequest_url (lib : Lib) (c : AirtableClient) (h h0 : Heap)
    (t r q U : String) (req0 : AirtableRequest)
    (hc : CreateAirtableRequest lib c "GET" t h = some (req0, h0))
    (hU : h0.loadString req0.URL = some U) :
    (∃ g h1, MakeGetRecordRequest lib c t r h = some (g, h1) ∧ g.Method = "GET" ∧
      h1.loadPayload g.Payload = some { Records := [] } ∧
      h1.loadString g.URL = some (U ++ "/" ++ r)) ∧
    (∃ f h2, MakeFilterRecordRequest lib c t q h = some (f, h2) ∧ f.Method = "GET" ∧
      h2.loadPayload f.Payload = some { Records := [] } ∧
      h2.loadString f.URL = some (U ++ q)) := by
  obtain ⟨template, hu⟩ := CreateAirtableRequest_template lib c "GET" t h h0 req0 hc
  rw [CreateAirtableRequest_eq lib c "GET" t template h hu] at hc
  simp only [Option.some.injEq, Prod.mk.injEq] at hc
  obtain ⟨hreq, hheap⟩ := hc
  subst hreq hheap
  simp only [Heap.loadString, List.getElem?_concat_length, Option.some.injEq] at hU
  subst hU
  rw [MakeGetRecordRequest_eq lib c t r template h hu,
    MakeFilterRecordRequest_eq lib c t q template h hu]
  constructor
  · refine ⟨_, _, rfl, rfl, ?_, ?_⟩
    · simp [Heap.loadPayload]
    · simp [Heap.loadString]
  · refine ⟨_, _, rfl, rfl, ?_, ?_⟩
    · simp [Heap.loadPayload]
    · simp [Heap.loadString]

/-- C4 at `exClient`, table `Users`, record `rec123` and a filter query. -/
theorem MakeRecordRequest_url_witness :
    CreateAirtableRequest Lib.plain exClient "GET" "Users" exHeap = some (exRequest, exHeap1) ∧
      exHeap1.loadString exRequest.URL = some "https://api.example.com/v0/basevariable/Users" ∧
      (∃ g h1, MakeGetRecordRequest Lib.plain exClient "Users" "rec123" exHeap = some (g, h1) ∧
        g.Method = "GET" ∧ h1.loadPayload g.Payload = some { Records := [] } ∧
        h1.loadString g.URL =
          some ("https://api.example.com/v0/basevariable/Users" ++ "/" ++ "rec123")) ∧
      (∃ f h2, MakeFilterRecordRequest Lib.plain exClient "Users" "?maxRecords=1" exHeap
          = some (f, h2) ∧
        f.Method = "GET" ∧ h2.loadPayload f.Payload = some { Records := [] } ∧
        h2.loadString f.URL =
          some ("https://api.example.com/v0/basevariable/Users" ++ "?maxRecords=1")) :=
  ⟨by decide, by decide,
    MakeRecordRequest_url Lib.plain exClient exHeap exHeap1 "Users" "rec123" "?maxRecords=1"
      "https://api.example.com/v0/basevariable/Users" exRequest (by decide) (by decide)⟩

/-- C5: `AddRecordToRequest(x)` on a request whose record list is `L` leaves the
record list `L` followed by `x`; and adding `x1`, ..., `xn` in that order to a request
freshly built by `CreateAirtableRequest` leaves the record list `x1`, ..., `xn`. -/
theorem AddRecordToRequest_appends :
    (∀ (r : AirtableRequest) (x : AirtableRecord) (h : Heap) (L : List AirtableRecord),
      h.loadPayload r.Payload = some { Records := L } →
      ∃ h1, AddRecordToRequest r x h = some h1 ∧
        h1.loadPayload r.Payload = some { Records := L ++ [x] }) ∧
    (∀ (lib : Lib) (c : AirtableClient) (m t : String) (h h0 : Heap) (r : AirtableRequest)
      (xs : List AirtableRecord), CreateAirtableRequest lib c m t h = some (r, h0) →
      ∃ h1, addRecords r xs h0 = some h1 ∧ h1.loadPayload r.Payload = some { Records := xs }) := by
  constructor
  · intro r x h L hL
    obtain ⟨h2, hrun, hres⟩ := addRecords_eq r [x] h L hL
    cases hstep : AddRecordToRequest r x h with
    | none => simp [addRecords, hstep] at hrun
    | some h1 =>
      simp only [addRecords, hstep, Option.some.injEq] at hrun
      subst hrun
      exact ⟨h1, rfl, hres⟩
  · intro lib c m t h h0 r xs hc
    obtain ⟨template, hu⟩ := CreateAirtableRequest_template lib c m t h h0 r hc
    rw [CreateAirtableRequest_eq lib c m t template h hu] at hc
    simp only [Option.some.injEq, Prod.mk.injEq] at hc
    obtain ⟨hreq, hheap⟩ := hc
    subst hreq hheap
    have hload : Heap.loadPayload
        { strings := h.strings ++ [Sprintf lib template [Operand.str t]],
          payloads := h.payloads ++ [{ Records := [] }] }
        (some h.payloads.length) = some { Records := [] } := by
      simp [Heap.loadPayload]
    obtain ⟨h1, hrun, hres⟩ := addRecords_eq
      { Method := m, Table := t, Payload := some h.payloads.length,
        URL := some h.strings.length } xs _ [] hload
    exact ⟨h1, hrun, by simpa using hres⟩

/-- C5 on the request built for `exClient`: one record added to an empty list, and
three records added in order. -/
theorem AddRecordToRequest_appends_witness :
    (exHeap1.loadPayload exRequest.Payload = some { Records := [] } ∧
      ∃ h1, AddRecordToRequest exRequest (exRecord "a") exHeap1 = some h1 ∧
        h1.loadPayload exRequest.Payload = some { Records := [] ++ [exRecord "a"] }) ∧
    (CreateAirtableRequest Lib.plain exClient "GET" "Users" exHeap = some (exRequest, exHeap1) ∧
      ∃ h1, addRecords exRequest [exRecord "a", exRecord "b", exRecord "a"] exHeap1 = some h1 ∧
        h1.loadPayload exRequest.Payload =
          some { Records := [exRecord "a", exRecord "b", exRecord "a"] }) :=
  ⟨⟨by decide, AddRecordToRequest_appends.1 exRequest (exRecord "a") exHeap1 [] (by decide)⟩,
    ⟨by decide, AddRecordToRequest_appends.2 Lib.plain exClient "GET" "Users" exHeap exHeap1
      exRequest [exRecord "a", exRecord "b", exRecord "a"] (by decide)⟩⟩

/-- C6: `SendRequest` with a nil request returns no bytes and an error, and hands no
message to the network, whatever the client, the library and the network are. -/
theorem SendRequest_nil (lib : Lib) (net : Transport) (c : AirtableClient) (h : Heap) :
    SendRequest lib net c none h =
      some { bytes := none, err := some (errorsNew "The request URL in SendRequest is nil"),
             sent := [] } := by
  rfl

/-- C7: when the message is built and the network answers with status `s`, body bytes
`B` and read error `e`, `SendRequest` returns an error and no bytes exactly when
`s` is at least 300, and below 300 it returns `B` and no error, whatever `e` is. -/
theorem SendRequest_status (lib : Lib) (net : Transport) (c : AirtableClient)
    (r : AirtableRequest) (h : Heap) (url : String) (msg : HttpRequest) (s : Int) (B : Bytes)
    (e : Option GoError) (hu : h.loadString r.URL = some url)
    (hb : buildHttpRequest lib r url c.Key h = some (Except.ok msg))
    (hnet : net msg = Except.ok { StatusCode := s, Body := B, ReadErr := e }) :
    ∃ res, SendRequest lib net c (some r) h = some res ∧
      ((res.err.isSome ∧ res.bytes = none) ↔ 300 ≤ s) ∧
      (s < 300 → res.bytes = some B ∧ res.err = none) := by
  by_cases hs : 300 ≤ s
  · have heq : SendRequest lib net c (some r) h =
        some { bytes := none,
               err := some (errorsNew
                 (Sprintf lib "Airtable response is an error %s" [Operand.ofError e])),
               sent := [msg] } := by
      simp only [SendRequest, hu, hb, hnet, ge_iff_le, hs, if_true]
    refine ⟨_, heq, ?_, ?_⟩
    · simp [hs]
    · intro hlt; omega
  · have heq : SendRequest lib net c (some r) h =
        some { bytes := some B, err := none, sent := [msg] } := by
      simp only [SendRequest, hu, hb, hnet, ge_iff_le, hs, if_false]
    refine ⟨_, heq, ?_, ?_⟩
    · simp [hs]
    · intro _; exact ⟨rfl, rfl⟩

/-- C7 on `exRequest` with a response of status 200 whose body read failed after
two bytes. -/
theorem SendRequest_status_witness :
    exHeap1.loadString exRequest.URL = some "https://api.example.com/v0/basevariable/Users" ∧
      buildHttpRequest Lib.plain exRequest "https://api.example.com/v0/basevariable/Users"
        exClient.Key exHeap1 = some (Except.ok exMessage) ∧
      answer exResponse exMessage = Except.ok
        { StatusCode := 200, Body := [104, 105], ReadErr := some (errorsNew "unexpected EOF") } ∧
      ∃ res, SendRequest Lib.plain (answer exResponse) exClient (some exRequest) exHeap1
          = some res ∧
        ((res.err.isSome ∧ res.bytes = none) ↔ (300 : Int) ≤ 200) ∧
        ((200 : Int) < 300 → res.bytes = some [104, 105] ∧ res.err = none) :=
  ⟨by decide, by rfl, by rfl,
    SendRequest_status Lib.plain (answer exResponse) exClient exRequest exHeap1
      "https://api.example.com/v0/basevariable/Users" exMessage 200 [104, 105]
      (some (errorsNew "unexpected EOF")) (by decide) (by rfl) (by rfl)⟩

/-- C8 fails on the code: a response with status 404 and a response with status 500
yield the same error, whose text is `Airtable response is an error %!s(<nil>)` and
holds no status code. -/
theorem SendRequest_error_without_status :
    (SendRequest Lib.plain (answer { StatusCode := 404, Body := [], ReadErr := none })
        exClient (some exRequest) exHeap1).map SendResult.err =
      some (some (errorsNew "Airtable response is an error %!s(<nil>)")) ∧
    (SendRequest Lib.plain (answer { StatusCode := 500, Body := [], ReadErr := none })
        exClient (some exRequest) exHeap1).map SendResult.err =
      some (some (errorsNew "Airtable response is an error %!s(<nil>)")) := by
  constructor <;> rfl

/-- C9, as stated, fails: for the request `CreateAirtableRequest("", "My Table")`
returns, with an empty method and the URL `https://api.example.com/v0/basevariable/My Table`,
the message built has method `GET` and the URL
`https://api.example.com/v0/basevariable/My%20Table`. -/
theorem buildHttpRequest_method_counterexample :
    CreateAirtableRequest Lib.plain exClient "" "My Table" exHeap
        = some (exRequestNoMethod, exHeapNoMethod) ∧
      exHeapNoMethod.loadString exRequestNoMethod.URL
        = some "https://api.example.com/v0/basevariable/My Table" ∧
      ∃ msg, buildHttpRequest Lib.plain exRequestNoMethod
          "https://api.example.com/v0/basevariable/My Table" exClient.Key exHeapNoMethod
          = some (Except.ok msg) ∧
        msg.Method = "GET" ∧ msg.Method ≠ exRequestNoMethod.Method ∧
        msg.URL = "https://api.example.com/v0/basevariable/My%20Table" ∧
        msg.URL ≠ "https://api.example.com/v0/basevariable/My Table" :=
  ⟨by rfl, by rfl, exMessageNoMethod, by rfl, by rfl, by decide, by rfl, by decide⟩

/-- C9, amended: when `buildHttpRequest(u, key)` succeeds on a request with method `m`
and the key pointer holds `k`, the message has method `m` if `m` is not empty and
`GET` if it is, as URL the one `url.Parse` returns for `u`, the JSON encoding of the
payload as body, and as header exactly
`Content-Type: application/json; charset=UTF-8` and `Authorization: Bearer k`;
and `SendRequest`, which passes the request's own URL and the client's key pointer,
hands exactly this message to the network. -/
theorem buildHttpRequest_message (lib : Lib) (r : AirtableRequest) (u : String) (key : Ptr)
    (h : Heap) (k : String) (msg : HttpRequest) (hk : h.loadString key = some k)
    (hb : buildHttpRequest lib r u key h = some (Except.ok msg)) :
    msg.Method = (if r.Method = "" then "GET" else r.Method) ∧
      lib.urlParse u = Except.ok msg.URL ∧
      lib.jsonEncode (h.loadPayload r.Payload) = Except.ok msg.Body ∧
      msg.Header = [("Content-Type", "application/json; charset=UTF-8"),
        ("Authorization", "Bearer " ++ k)] ∧
      headerValues msg.Header "Content-Type" = ["application/json; charset=UTF-8"] ∧
      headerValues msg.Header "Authorization" = ["Bearer " ++ k] ∧
      ∀ (net : Transport) (c : AirtableClient), c.Key = key → h.loadString r.URL = some u →
        ∃ res, SendRequest lib net c (some r) h = some res ∧ res.sent = [msg] := by
  obtain ⟨b, k1, u1, hj, hk1, hurl, hmsg⟩ := buildHttpRequest_ok lib r u key h msg hb
  rw [hk] at hk1
  cases hk1
  rw [Sprintf_bearer] at hmsg
  have hhd : msg.Header = [("Content-Type", "application/json; charset=UTF-8"),
      ("Authorization", "Bearer " ++ k)] := by
    rw [hmsg]; rfl
  refine ⟨by rw [hmsg], by rw [hmsg]; exact hurl, by rw [hmsg]; exact hj, hhd, ?_, ?_, ?_⟩
  · rw [hhd]; simp [headerValues]
  · rw [hhd]; simp [headerValues]
  · intro net c hc hu
    subst hc
    exact SendRequest_sent lib net c r h u msg hu hb

/-- C9, amended, on the request with a space in its URL: the message has method
`GET`, the escaped URL, an empty JSON object and a line feed as body, and the key
`keyvariable` as bearer token. -/
theorem buildHttpRequest_message_witness :
    exHeapNoMethod.loadString exClient.Key = some "keyvariable" ∧
      buildHttpRequest Lib.plain exRequestNoMethod
        "https://api.example.com/v0/basevariable/My Table" exClient.Key exHeapNoMethod
        = some (Except.ok exMessageNoMethod) ∧
      (exMessageNoMethod.Method
          = (if exRequestNoMethod.Method = "" then "GET" else exRequestNoMethod.Method) ∧
        Lib.plain.urlParse "https://api.example.com/v0/basevariable/My Table"
          = Except.ok exMessageNoMethod.URL ∧
        Lib.plain.jsonEncode (exHeapNoMethod.loadPayload exRequestNoMethod.Payload)
          = Except.ok exMessageNoMethod.Body ∧
        exMessageNoMethod.Header = [("Content-Type", "application/json; charset=UTF-8"),
          ("Authorization", "Bearer " ++ "keyvariable")] ∧
        headerValues exMessageNoMethod.Header "Content-Type"
          = ["application/json; charset=UTF-8"] ∧
        headerValues exMessageNoMethod.Header "Authorization" = ["Bearer " ++ "keyvariable"] ∧
        ∀ (net : Transport) (c : AirtableClient), c.Key = exClient.Key →
          exHeapNoMethod.loadString exRequestNoMethod.URL
            = some "https://api.example.com/v0/basevariable/My Table" →
          ∃ res, SendRequest Lib.plain net c (some exRequestNoMethod) exHeapNoMethod = some res ∧
            res.sent = [exMessageNoMethod]) :=
  ⟨by decide, by rfl,
    buildHttpRequest_message Lib.plain exRequestNoMethod
      "https://api.example.com/v0/basevariable/My Table"
      exClient.Key exHeapNoMethod "keyvariable" exMessageNoMethod (by decide) (by rfl)⟩

/-- C10: after any sequence of calls of `CreateAirtableRequest`, `MakeGetRecordRequest`,
`MakeFilterRecordRequest` on a client and of `AddRecordToRequest` on requests, the
string behind the client's key pointer and the string behind its template pointer
are what they were before; and `CreateAirtableRequest(m, t)` on the heap before the
sequence (which is what a first call `CreateAirtableRequest(m, t)` of the sequence
returns) and on the heap after it return requests with equal URLs. -/
theorem runCalls_client_unchanged (lib : Lib) (c : AirtableClient) (calls : List Call)
    (h h1 : Heap) (hrun : runCalls lib c calls h = some h1) :
    (∀ k, h.loadString c.Key = some k → h1.loadString c.Key = some k) ∧
    (∀ u, h.loadString c.URL = some u → h1.loadString c.URL = some u) ∧
    (∀ (m t : String) (r0 : AirtableRequest) (h0 : Heap),
      CreateAirtableRequest lib c m t h = some (r0, h0) →
      ∃ r2 h2, CreateAirtableRequest lib c m t h1 = some (r2, h2) ∧
        h2.loadString r2.URL = h0.loadString r0.URL) := by
  refine ⟨fun k hk => runCalls_loadString lib c calls h h1 hrun _ k hk,
    fun u hu => runCalls_loadString lib c calls h h1 hrun _ u hu, ?_⟩
  intro m t r0 h0 hc
  obtain ⟨template, hu⟩ := CreateAirtableRequest_template lib c m t h h0 r0 hc
  have hu1 := runCalls_loadString lib c calls h h1 hrun _ template hu
  rw [CreateAirtableRequest_eq lib c m t template h hu] at hc
  simp only [Option.some.injEq, Prod.mk.injEq] at hc
  obtain ⟨hreq, hheap⟩ := hc
  subst hreq hheap
  rw [CreateAirtableRequest_eq lib c m t template h1 hu1]
  refine ⟨_, _, rfl, ?_⟩
  simp [Heap.loadString]

/-- C10 on `exClient`: a create, a get, an add and a filter call, then a second create
with the arguments of the first. -/
theorem runCalls_client_unchanged_witness :
    runCalls Lib.plain exClient exCalls exHeap = some exHeap2 ∧
      ((∀ k, exHeap.loadString exClient.Key = some k → exHeap2.loadString exClient.Key = some k) ∧
      (∀ u, exHeap.loadString exClient.URL = some u → exHeap2.loadString exClient.URL = some u) ∧
      (∀ (m t : String) (r0 : AirtableRequest) (h0 : Heap),
        CreateAirtableRequest Lib.plain exClient m t exHeap = some (r0, h0) →
        ∃ r2 h2, CreateAirtableRequest Lib.plain exClient m t exHeap2 = some (r2, h2) ∧
          h2.loadString r2.URL = h0.loadString r0.URL)) :=
  ⟨by decide, runCalls_client_unchanged Lib.plain exClient exCalls exHeap exHeap2 (by decide)⟩

end Airtable
